import Mathlib

/-!
Verification development for the event-aggregation server
(Express + Socket.IO backend with an intent classifier, a TTL event
cache, a webhook de-dupe filter, and a token-streaming LLM bridge).

Each definition is a shallow embedding of a function of the source:
* `Events.*`      — `server/lib/events.js` (list/detail cache, `findEvents`,
                    `getEventById`, `invalidateEventsCache`)
* `Ai.*`          — `server/lib/ai.js` (normalisation, category/quoted-name/
                    date detection, the `askAI` classification steps)
* `Answer.*`      — `buildAnswer` of the revised `server/lib/ai.js`
                    (`classifyQuery`/`buildAnswer` variant)
* `LlmS.*`        — `streamChat` of `server/lib/llm.js` (per-chunk line split,
                    no carry-over buffer)
* `LlmB.*`        — `streamChat` of the revised `server/lib/llm.js`
                    (carry-over buffer for partial lines)
* `Srv.*`         — route handlers of `server/index.js`
                    (`/api/events`, `/api/events/:id`, `/ai/chat`, `/webhooks/wp`)

Machine-level conventions: JS numbers that can be `NaN` in the modelled
paths are embedded as `JsNum`; timestamps (`Date.now()`) are naturals and
subtraction is done in `Int` so that comparisons match JS semantics.
-/

/-! ## JS number model (only the behaviour the modelled paths exercise) -/

/-- A JS number as used by the `limit` handling: either `NaN` (from
`Number` applied to a non-numeric string) or an integer. -/
inductive JsNum where
  | nan : JsNum
  | int (n : Int) : JsNum
deriving DecidableEq, Repr

/-- Decimal value of a digit run. -/
def digitsToNat (ds : List Char) : Nat :=
  ds.foldl (fun acc c => acc * 10 + (c.toNat - 48)) 0

/-- `Number(s)` for the strings the server meets: a digit string parses to
its value, anything non-numeric gives `NaN`. -/
def jsNumber (s : String) : JsNum :=
  if s.toList ≠ [] && s.toList.all Char.isDigit then JsNum.int (digitsToNat s.toList)
  else JsNum.nan

/-- `Math.min`: `NaN` propagates. -/
def jsMin : JsNum → JsNum → JsNum
  | JsNum.nan, _ => JsNum.nan
  | _, JsNum.nan => JsNum.nan
  | JsNum.int a, JsNum.int b => JsNum.int (min a b)

/-- `Math.max`: `NaN` propagates. -/
def jsMax : JsNum → JsNum → JsNum
  | JsNum.nan, _ => JsNum.nan
  | _, JsNum.nan => JsNum.nan
  | JsNum.int a, JsNum.int b => JsNum.int (max a b)

/-- `xs.slice(0, e)`: `NaN` end converts to `0` (empty result); a negative
end counts from the end of the array; otherwise take `e` items. -/
def jsSliceTo {α : Type} (xs : List α) : JsNum → List α
  | JsNum.nan => []
  | JsNum.int n => if n < 0 then xs.take (((xs.length : Int) + n).toNat) else xs.take n.toNat

/-! ## Character-level helpers shared by the embeddings -/

/-- JS whitespace (`\s`, the characters that occur in this system's data):
space, tab, LF, CR, VT, FF, NBSP. -/
def isJsWs (c : Char) : Bool :=
  c = ' ' || c = '\t' || c = '\n' || c = '\r' ||
  c = Char.ofNat 11 || c = Char.ofNat 12 || c = Char.ofNat 160

/-- `String.prototype.trim` on a character list. -/
def jsTrim (l : List Char) : List Char :=
  ((l.dropWhile isJsWs).reverse.dropWhile isJsWs).reverse

/-- `String.prototype.trim`. -/
def jsTrimS (s : String) : String :=
  String.mk (jsTrim s.toList)

/-- `s.includes(sub)` on character lists: `sub` occurs contiguously in `s`. -/
def listIncludes (s sub : List Char) : Bool :=
  match s with
  | [] => sub.isEmpty
  | _ :: t => sub.isPrefixOf s || listIncludes t sub

/-- `s.includes(sub)` on strings. -/
def strIncludes (s sub : String) : Bool :=
  listIncludes s.toList sub.toList

/-- A regex `\w` character (ASCII letters, digits, underscore). -/
def isWordChar (c : Char) : Bool :=
  c.isAlphanum || c = '_'

/-- `s.toLowerCase()` (ASCII lowering, character by character). -/
def toLowerS (s : String) : String :=
  String.mk (s.toList.map Char.toLower)

/-! ## JSON values (the shapes `JSON.parse` produces)

Used both for the upstream detail responses consumed by `getEventById`
and for the line fragments decoded by the streaming LLM bridge.
Numbers keep their integer part and the literal fraction digits
(exponents do not occur in the modelled data). -/

inductive Json where
  | null : Json
  | bool (b : Bool) : Json
  | num (i : Int) (frac : String) : Json
  | str (s : String) : Json
  | arr (xs : List Json) : Json
  | obj (kvs : List (String × Json)) : Json

namespace Json

/-- JS truthiness of a parsed JSON value (`0`, `""`, `null`, `false` are
falsy; every object and array is truthy). -/
def jsTruthy : Json → Bool
  | Json.null => false
  | Json.bool b => b
  | Json.num i frac => !(i = 0 && frac.toList.all (fun c => c = '0'))
  | Json.str s => s ≠ ""
  | Json.arr _ => true
  | Json.obj _ => true

/-- Object field lookup; `JSON.parse` keeps the last duplicate key, so the
last binding wins. -/
def getField : Json → String → Option Json
  | Json.obj kvs, k =>
    (kvs.reverse.find? (fun kv => kv.1 == k)).map (fun kv => kv.2)
  | _, _ => none

/-- JS strict equality of a JSON value with a string literal. -/
def strictEqStr : Option Json → String → Bool
  | some (Json.str s), k => s == k
  | _, _ => false

/-- `x?.[0]` for the shapes the code meets (an array's first element). -/
def index0 : Json → Option Json
  | Json.arr (x :: _) => some x
  | _ => none

/-- A JS optional-chain step is nullish when the key is absent or `null`. -/
def nullish : Option Json → Bool
  | none => true
  | some Json.null => true
  | some _ => false

/-- `String(x)` for the scalar shapes that occur as ids and titles. -/
def jsToString : Json → String
  | Json.null => "null"
  | Json.bool b => if b then "true" else "false"
  | Json.num i frac => toString i ++ (if frac ≠ "" then "." ++ frac else "")
  | Json.str s => s
  | Json.arr _ => ""
  | Json.obj _ => "[object Object]"

end Json

/-! ### `JSON.parse` (recursive-descent, fuelled) -/

/-- JSON insignificant whitespace. -/
def skipWsJ (s : List Char) : List Char :=
  s.dropWhile (fun c => c = ' ' || c = '\t' || c = '\n' || c = '\r')

/-- Decode the four hex digits of a `\uXXXX` escape. -/
def hexVal (c : Char) : Option Nat :=
  if c.isDigit then some (c.toNat - 48)
  else if 'a' ≤ c ∧ c ≤ 'f' then some (c.toNat - 87)
  else if 'A' ≤ c ∧ c ≤ 'F' then some (c.toNat - 55)
  else none

/-- Parse the body of a JSON string after the opening quote; returns the
content and the characters after the closing quote. -/
def parseStrBody : Nat → List Char → Option (List Char × List Char)
  | 0, _ => none
  | _ + 1, [] => none
  | fu + 1, c :: t =>
    if c = '"' then some ([], t)
    else if c = '\\' then
      match t with
      | [] => none
      | e :: t2 =>
        if e = 'u' then
          match t2 with
          | a :: b :: cch :: d :: t3 =>
            match hexVal a, hexVal b, hexVal cch, hexVal d with
            | some ha, some hb, some hc, some hd =>
              (parseStrBody fu t3).map (fun p =>
                (Char.ofNat (((ha * 16 + hb) * 16 + hc) * 16 + hd) :: p.1, p.2))
            | _, _, _, _ => none
          | _ => none
        else
          let dec : Option Char :=
            if e = '"' then some '"'
            else if e = '\\' then some '\\'
            else if e = '/' then some '/'
            else if e = 'n' then some '\n'
            else if e = 't' then some '\t'
            else if e = 'r' then some '\r'
            else if e = 'b' then some (Char.ofNat 8)
            else if e = 'f' then some (Char.ofNat 12)
            else none
          match dec with
          | some ch => (parseStrBody fu t2).map (fun p => (ch :: p.1, p.2))
          | none => none
    else (parseStrBody fu t).map (fun p => (c :: p.1, p.2))

/-- Parse a JSON number (optional sign, digits, optional fraction). -/
def parseNum (s : List Char) : Option (Json × List Char) :=
  let (neg, s1) := match s with
    | '-' :: t => (true, t)
    | _ => (false, s)
  let digits := s1.takeWhile Char.isDigit
  let rest := s1.dropWhile Char.isDigit
  if digits = [] then none
  else
    let i : Int := digitsToNat digits
    let i := if neg then -i else i
    match rest with
    | '.' :: r2 =>
      let fr := r2.takeWhile Char.isDigit
      if fr = [] then none
      else some (Json.num i (String.mk fr), r2.dropWhile Char.isDigit)
    | _ => some (Json.num i "", rest)

mutual

/-- Parse one JSON value; returns the value and the remaining input. -/
def parseVal : Nat → List Char → Option (Json × List Char)
  | 0, _ => none
  | fu + 1, s =>
    match skipWsJ s with
    | [] => none
    | c :: t =>
      if c = '"' then (parseStrBody (fu + 1) t).map (fun p => (Json.str (String.mk p.1), p.2))
      else if c = '{' then
        match skipWsJ t with
        | '}' :: r => some (Json.obj [], r)
        | u => (parseFields fu u).map (fun p => (Json.obj p.1, p.2))
      else if c = '[' then
        match skipWsJ t with
        | ']' :: r => some (Json.arr [], r)
        | u => (parseElems fu u).map (fun p => (Json.arr p.1, p.2))
      else if ['t', 'r', 'u', 'e'].isPrefixOf (c :: t) then some (Json.bool true, (c :: t).drop 4)
      else if ['f', 'a', 'l', 's', 'e'].isPrefixOf (c :: t) then some (Json.bool false, (c :: t).drop 5)
      else if ['n', 'u', 'l', 'l'].isPrefixOf (c :: t) then some (Json.null, (c :: t).drop 4)
      else parseNum (c :: t)

/-- Parse comma-separated array elements up to the closing bracket. -/
def parseElems : Nat → List Char → Option (List Json × List Char)
  | 0, _ => none
  | fu + 1, s =>
    match parseVal fu s with
    | none => none
    | some (v, r) =>
      match skipWsJ r with
      | ',' :: r2 => (parseElems fu r2).map (fun p => (v :: p.1, p.2))
      | ']' :: r2 => some ([v], r2)
      | _ => none

/-- Parse comma-separated object fields up to the closing brace. -/
def parseFields : Nat → List Char → Option (List (String × Json) × List Char)
  | 0, _ => none
  | fu + 1, s =>
    match skipWsJ s with
    | '"' :: t =>
      match parseStrBody fu t with
      | none => none
      | some (k, r) =>
        match skipWsJ r with
        | ':' :: r2 =>
          match parseVal fu r2 with
          | none => none
          | some (v, r3) =>
            match skipWsJ r3 with
            | ',' :: r4 => (parseFields fu r4).map (fun p => ((String.mk k, v) :: p.1, p.2))
            | '}' :: r4 => some ([(String.mk k, v)], r4)
            | _ => none
        | _ => none
    | _ => none

end

/-- `JSON.parse`: one value, then only whitespace may remain. -/
def jsonParse (s : List Char) : Option Json :=
  match parseVal (2 * s.length + 8) s with
  | some (j, rest) => if skipWsJ rest = [] then some j else none
  | none => none

/-! ## Event cache (`server/lib/events.js`) -/

namespace Events

/-- A lightweight list record `{id, title}` as produced by `findEvents`. -/
structure EventLite where
  id : String
  title : String
deriving DecidableEq, Repr

/-- A raw upstream list record; `findEvents` reads `e.id` (stringified) and
`e.title || e.post_title || ""` (JS `||`, so empty strings fall through).
Absent fields are `none`. -/
structure RawEvent where
  id : String
  title : Option String
  post_title : Option String
deriving DecidableEq, Repr

/-- JS `a || b` on optional strings: the first operand that is present and
non-empty wins. -/
def jsOrStr (a : Option String) (b : Option String) (dflt : String) : String :=
  match a with
  | some s => if s ≠ "" then s else match b with
      | some t => if t ≠ "" then t else dflt
      | none => dflt
  | none => match b with
      | some t => if t ≠ "" then t else dflt
      | none => dflt

/-- `arr.map(e => ({id: String(e.id), title: e.title || e.post_title || ""}))` -/
def mapListRecord (e : RawEvent) : EventLite :=
  { id := e.id, title := jsOrStr e.title e.post_title "" }

/-- The single-slot list cache `{ts, data}`; `data = none` is JS `null`. -/
structure ListCache where
  ts : Nat
  data : Option (List EventLite)
deriving DecidableEq, Repr

/-- The full normalized detail record shape.  `start`/`end` and the two
passthrough scalars keep the raw JSON value (`none` is JS `null`). -/
structure EventRecord where
  id : String
  title : String
  start : Option Json
  «end» : Option Json
  venue : String
  category : Option String
  url : Option String
  availability : Option Json
  price_from : Option Json
  content_0_text : String

/-- Module state: the list slot plus the detail map (`Map` keyed by the
stringified id; modelled as an association list in insertion order). -/
structure CacheState where
  listCache : ListCache
  detailCache : List (String × (Nat × EventRecord))

/-- `TTL_LIST_MS = 60 * 1000` -/
def TTL_LIST_MS : Int := 60 * 1000

/-- `TTL_DETAIL_MS = 5 * 60 * 1000` -/
def TTL_DETAIL_MS : Int := 5 * 60 * 1000

/-- `e.title.toLowerCase().includes(q.toLowerCase())` — case-insensitive
substring test (ASCII lowering, as in the data the server handles). -/
def titleContains (title q : String) : Bool :=
  listIncludes ((toLowerS title).toList) ((toLowerS q).toList)

/-- The filter+slice applied to a list `out` for query `q` and `limit`:
`q ? out.filter(e => e.title…includes(q…)).slice(0, limit) : out.slice(0, limit)`.
JS `q ?` treats the empty string as false. -/
def filterSlice (out : List EventLite) (q : String) (limit : JsNum) : List EventLite :=
  if q ≠ "" then jsSliceTo (out.filter (fun e => titleContains e.title q)) limit
  else jsSliceTo out limit

/-- `findEvents({limit, q})`, with the ambient state and clock made
explicit.  `upstream` is the outcome the fetch of
`/wp-json/example/v1/events` would produce if contacted (`Except.error`
when the fetch rejects).  Returns the response rows, the state after the
call, and whether the upstream was contacted. -/
def findEvents (st : CacheState) (t : Nat) (upstream : Except String (List RawEvent))
    (limit : JsNum) (q : String) :
    Except String (List EventLite × CacheState × Bool) :=
  match st.listCache.data with
  | some cached =>
    if (t : Int) - st.listCache.ts < TTL_LIST_MS then
      Except.ok (filterSlice cached q limit, st, false)
    else
      match upstream with
      | Except.error e => Except.error e
      | Except.ok raw =>
        let mapped := raw.map mapListRecord
        let st' : CacheState := { st with listCache := { ts := t, data := some mapped } }
        Except.ok (filterSlice mapped q limit, st', true)
  | none =>
    match upstream with
    | Except.error e => Except.error e
    | Except.ok raw =>
      let mapped := raw.map mapListRecord
      let st' : CacheState := { st with listCache := { ts := t, data := some mapped } }
      Except.ok (filterSlice mapped q limit, st', true)

/-- `invalidateEventsCache()`: reset the list slot to `{ts: 0, data: null}`
and clear the detail map. -/
def invalidateEventsCache (_st : CacheState) : CacheState :=
  { listCache := { ts := 0, data := none }, detailCache := [] }

/-! ### Detail path (`getEventById`) -/

/-- `html.replace(/<[^>]*>/g, " ")`: a `<` with a later `>` is removed
together with everything up to that `>` (replaced by a space); a `<`
with no closing `>` stays. -/
def dropTags : Nat → List Char → List Char
  | 0, s => s
  | fu + 1, s =>
    match s with
    | [] => []
    | c :: t =>
      if c = '<' then
        (match t.dropWhile (fun d => d ≠ '>') with
         | _ :: after => ' ' :: dropTags fu after
         | [] => c :: dropTags fu t)
      else c :: dropTags fu t

/-- Squeeze runs of spaces (after whitespace was mapped to spaces),
modelling `.replace(/\s+/g, " ")`. -/
def squeezeSpaces : List Char → List Char
  | [] => []
  | [c] => [c]
  | a :: b :: t =>
    if a = ' ' && b = ' ' then squeezeSpaces (b :: t)
    else a :: squeezeSpaces (b :: t)

/-- `stripTags(html)`: drop tags, collapse whitespace, trim. -/
def stripTags (html : String) : String :=
  let noTags := dropTags html.length html.toList
  let spaced := noTags.map (fun c => if isJsWs c then ' ' else c)
  String.mk (jsTrim (squeezeSpaces spaced))

/-- JS `a || b || null` over JSON field values: the first truthy value. -/
def firstTruthy : List (Option Json) → Option Json
  | [] => none
  | some v :: rest => if v.jsTruthy then some v else firstTruthy rest
  | none :: rest => firstTruthy rest

/-- `x || ""` for a string-valued JSON field. -/
def strOrEmpty (v : Option Json) : String :=
  match v with
  | some (Json.str s) => if s ≠ "" then s else ""
  | _ => ""

/-- URL host rewriting (`absoluteUrl`/`fixHostUrl`): forces scheme+host of
`WP_BASE_URL`. Modelled as the identity on the URL string — no claim
depends on the rewritten host, and WHATWG URL parsing is outside the
embedding. -/
def fixHostUrl (u : Option String) : Option String := u

/-- `mapFromWpPost(p)`: normalize a WP core post into the event record. -/
def mapFromWpPost (p : Json) : EventRecord :=
  let contentHtml := strOrEmpty (p.getField "content" |>.bind (·.getField "rendered"))
  let terms := match p.getField "_embedded" |>.bind (·.getField "wp:term") with
    | some (Json.arr xs) => xs
    | _ => []
  -- `terms.flat()` on the array-of-arrays of term objects
  let flat := terms.foldr (fun t acc => match t with
    | Json.arr ys => ys ++ acc
    | _ => acc) []
  let cats := (flat.filter (fun t => Json.strictEqStr (t.getField "taxonomy") "category")).filterMap
    (fun t => match t.getField "name" with
      | some (Json.str n) => if n ≠ "" then some n else none
      | _ => none)
  let eventCats := (flat.filter (fun t =>
      listIncludes ((toLowerS (Json.jsToString ((t.getField "taxonomy").getD Json.null))).toList)
        "event".toList)).filterMap
    (fun t => match t.getField "name" with
      | some (Json.str n) => if n ≠ "" then some n else none
      | _ => none)
  let acf := match firstTruthy [p.getField "acf", p.getField "meta"] with
    | some a => a
    | none => Json.obj []
  let start := firstTruthy [acf.getField "start_date", acf.getField "date", acf.getField "start"]
  let end_ := firstTruthy [acf.getField "end_date", acf.getField "end"]
  let url := fixHostUrl (match p.getField "link" with
    | some (Json.str s) => if s ≠ "" then some s else none
    | _ => none)
  { id := Json.jsToString ((p.getField "id").getD Json.null)
    title := strOrEmpty (p.getField "title" |>.bind (·.getField "rendered"))
    start := start
    «end» := end_
    venue := strOrEmpty (acf.getField "venue")
    category := match eventCats.head? with
      | some c => some c
      | none => cats.head?
    url := url
    availability := if Json.nullish (acf.getField "availability") then none
      else acf.getField "availability"
    price_from := if Json.nullish (acf.getField "price_from") then none
      else acf.getField "price_from"
    content_0_text := (stripTags contentHtml).take 1200 }

/-- One upstream detail-endpoint candidate's outcome: the fetch rejected
(`fail`, carrying the error message), or it resolved with a parsed JSON
body. -/
inductive Candidate where
  | fail (msg : String) : Candidate
  | respond (d : Json) : Candidate

/-- The candidate loop of `getEventById`: accept the first response that is
truthy and has a truthy `id` or `title`; failed fetches update `lastErr`;
if nothing is accepted, throw `lastErr || Error("no detail endpoint found")`. -/
def firstAccepted : List Candidate → Option String → Except String Json
  | [], lastErr => Except.error (lastErr.getD "no detail endpoint found")
  | Candidate.fail m :: rest, _ => firstAccepted rest (some m)
  | Candidate.respond d :: rest, lastErr =>
    if d.jsTruthy &&
        (Json.jsTruthy ((d.getField "id").getD Json.null) ||
         Json.jsTruthy ((d.getField "title").getD Json.null)) then
      Except.ok d
    else firstAccepted rest lastErr

/-- The fallback/legacy normalization branch of `getEventById`. -/
def legacyShape (data : Json) (id : String) : EventRecord :=
  { id := if Json.jsTruthy ((data.getField "id").getD Json.null)
      then Json.jsToString ((data.getField "id").getD Json.null) else id
    title :=
      match data.getField "title" |>.bind (·.getField "rendered") with
      | some (Json.str s) =>
        if s ≠ "" then s
        else match data.getField "title" with
          | some (Json.str t) => t
          | _ => ""
      | _ =>
        match data.getField "title" with
        | some (Json.str t) => t
        | _ => ""
    start := none
    «end» := none
    venue := ""
    category := none
    url := fixHostUrl (match data.getField "link" with
      | some (Json.str s) => if s ≠ "" then some s else none
      | _ => none)
    availability := none
    price_from := none
    content_0_text := (stripTags (strOrEmpty (data.getField "content" |>.bind (·.getField "rendered")))).take 1200 }

/-- Association-list read of the detail cache (`Map.get`). -/
def detailGet (dc : List (String × (Nat × EventRecord))) (k : String) : Option (Nat × EventRecord) :=
  (dc.find? (fun kv => kv.1 = k)).map (fun kv => kv.2)

/-- `Map.set`: replace in place or append. -/
def detailSet (dc : List (String × (Nat × EventRecord))) (k : String) (v : Nat × EventRecord) :
    List (String × (Nat × EventRecord)) :=
  match dc with
  | [] => [(k, v)]
  | (k', v') :: t => if k' = k then (k, v) :: t else (k', v') :: detailSet t k v

/-- `getEventById(id)`: detail cache under a 5-minute TTL, then the
candidate loop; on success the normalized record is stored. `candidates`
are the outcomes the three upstream candidate URLs would produce, in
their fixed priority order. -/
def getEventById (st : CacheState) (t : Nat) (id : String) (candidates : List Candidate) :
    Except String (EventRecord × CacheState) :=
  let key := id
  match detailGet st.detailCache key with
  | some (ts, rec) =>
    if (t : Int) - ts < TTL_DETAIL_MS then Except.ok (rec, st)
    else
      match firstAccepted candidates none with
      | Except.error e => Except.error e
      | Except.ok data =>
        let out :=
          if data.jsTruthy && Json.jsTruthy ((data.getField "id").getD Json.null) &&
              Json.jsTruthy ((data.getField "title").getD Json.null) &&
              Json.jsTruthy ((data.getField "content").getD Json.null) then
            mapFromWpPost data
          else legacyShape data id
        Except.ok (out, { st with detailCache := detailSet st.detailCache key (t, out) })
  | none =>
    match firstAccepted candidates none with
    | Except.error e => Except.error e
    | Except.ok data =>
      let out :=
        if data.jsTruthy && Json.jsTruthy ((data.getField "id").getD Json.null) &&
            Json.jsTruthy ((data.getField "title").getD Json.null) &&
            Json.jsTruthy ((data.getField "content").getD Json.null) then
          mapFromWpPost data
        else legacyShape data id
      Except.ok (out, { st with detailCache := detailSet st.detailCache key (t, out) })

end Events

/-! ## Intent classifier (`server/lib/ai.js`) -/

namespace Ai

/-- The curly-quote/dash unification step of `normalizeText` (the three
chained `.replace` calls on character classes). -/
def normChar (c : Char) : Char :=
  if c = Char.ofNat 8220 ∨ c = Char.ofNat 8221 then '"'
  else if c = Char.ofNat 8216 ∨ c = Char.ofNat 8217 then Char.ofNat 39
  else if c = Char.ofNat 8211 ∨ c = Char.ofNat 8212 then '-'
  else c

/-- Collapse whitespace runs to single spaces (`.replace(/\s+/g, " ")`). -/
def collapseWs (l : List Char) : List Char :=
  Events.squeezeSpaces (l.map (fun c => if isJsWs c then ' ' else c))

/-- `normalizeText(s)`: unify quotes/dashes, collapse whitespace, trim.
A falsy input (empty string) returns `""`. -/
def normalizeText (s : String) : String :=
  if s = "" then ""
  else String.mk (jsTrim (collapseWs (s.toList.map normChar)))

/-- `CATEGORY_KEYWORDS`, in object-literal insertion order. -/
def CATEGORY_KEYWORDS : List (String × List String) :=
  [("comedy", ["comedy", "stand-up", "standup", "comedian", "laugh"]),
   ("music", ["music", "concert", "gig", "band", "festival"]),
   ("family", ["family", "kids", "children"]),
   ("sports", ["sport", "sports", "snooker", "boxing", "cup", "race"]),
   ("dance", ["dance", "ballet", "choreography"]),
   ("exhibition", ["exhibition", "expo", "showcase", "fair"])]

/-- `detectCategory(text)`: first category (in table order) one of whose
keywords occurs in the lowercased text. -/
def detectCategory (text : String) : Option String :=
  let t := toLowerS text
  (CATEGORY_KEYWORDS.find? (fun p => p.2.any (fun k => strIncludes t k))).map (fun p => p.1)

/-- Everything up to the first occurrence of `stop`, and what follows it;
`none` when `stop` does not occur. -/
def takeUntil (stop : Char) : List Char → Option (List Char × List Char)
  | [] => none
  | c :: cs =>
    if c = stop then some ([], cs)
    else (takeUntil stop cs).map (fun p => (c :: p.1, p.2))

/-- The leftmost match of `/"([^"]+)"|“([^”]+)”/`: at each position, a
straight-quoted or curly-quoted non-empty span. -/
def findQuoted : List Char → Option String
  | [] => none
  | c :: cs =>
    if c = '"' then
      match takeUntil '"' cs with
      | some (content, _) => if content ≠ [] then some (String.mk content) else findQuoted cs
      | none => findQuoted cs
    else if c = Char.ofNat 8220 then
      match takeUntil (Char.ofNat 8221) cs with
      | some (content, _) => if content ≠ [] then some (String.mk content) else findQuoted cs
      | none => findQuoted cs
    else findQuoted cs

/-- `detectQuotedName(text)`. -/
def detectQuotedName (text : String) : Option String :=
  findQuoted text.toList

/-- Case-insensitive literal prefix (regex `/i` flag). -/
def ciPrefix (pat : List Char) (s : List Char) : Bool :=
  pat.isPrefixOf (s.map Char.toLower)

/-- A character of the name class `[\w\s\-&']`. -/
def isNameClass (c : Char) : Bool :=
  isWordChar c || isJsWs c || c = '-' || c = '&' || c = Char.ofNat 39

/-- The captured group `[a-z0-9][\w\s\-&']{2,}` anchored at the end of the
input: leading alphanumeric, then at least two name-class characters
running to the end. -/
def nameCapture (s : List Char) : Bool :=
  match s with
  | c :: t => c.isAlphanum && decide (t.length ≥ 2) && t.all isNameClass
  | [] => false

/-- After a keyword: require `\s+`, then the anchored name capture;
returns the capture (original case). -/
def matchNameAfter (s : List Char) : Option (List Char) :=
  match s with
  | c :: _ =>
    if isJsWs c then
      let r := s.dropWhile isJsWs
      if nameCapture r then some r else none
    else none
  | [] => none

/-- Leftmost match of `/\babout\s+([a-z0-9][\w\s\-&']{2,})$/i` (or any
single keyword in place of `about`): scan positions tracking the word
boundary, and at a boundary try keyword + whitespace + anchored capture. -/
def findKeywordName (kw : List Char) : List Char → Bool → Option (List Char)
  | [], _ => none
  | c :: t, atB =>
    if atB && ciPrefix kw (c :: t) then
      match matchNameAfter ((c :: t).drop kw.length) with
      | some name => some name
      | none => findKeywordName kw t (!isWordChar c)
    else findKeywordName kw t (!isWordChar c)

/-- Leftmost match of `/\b(called|named)\s+([a-z0-9][\w\s\-&']{2,})$/i`
(alternation tried in order at each position). -/
def findCalledNamed : List Char → Bool → Option (List Char)
  | [], _ => none
  | c :: t, atB =>
    let here : Option (List Char) :=
      if atB then
        match (if ciPrefix "called".toList (c :: t) then matchNameAfter ((c :: t).drop 6) else none) with
        | some n => some n
        | none => if ciPrefix "named".toList (c :: t) then matchNameAfter ((c :: t).drop 5) else none
      else none
    match here with
    | some n => some n
    | none => findCalledNamed t (!isWordChar c)

/-- Match `what'?s\s+on` (and the subsumed `whats\s+on`) at this position. -/
def whatsOnAt (s : List Char) : Bool :=
  if ciPrefix "what".toList s then
    let r := s.drop 4
    let r := match r with
      | c :: t => if c = Char.ofNat 39 then t else r
      | [] => r
    match r with
    | c :: t =>
      if c.toLower = 's' then
        match t with
        | d :: _ => isJsWs d && ciPrefix "on".toList (t.dropWhile isJsWs)
        | [] => false
      else false
    | [] => false
  else false

/-- Scan every position for `whatsOnAt`. -/
def hasWhatsOnPat : List Char → Bool
  | [] => false
  | c :: t => whatsOnAt (c :: t) || hasWhatsOnPat t

/-- `detectWhatsOn(text)`: the broad browse-request regex
`/(what'?s\s+on|whats\s+on|what is on|anything on|events|shows|what to see|what to do|happening)/`
tested against the lowercased text. -/
def detectWhatsOn (text : String) : Bool :=
  let t := toLowerS text
  hasWhatsOnPat t.toList || strIncludes t "what is on" || strIncludes t "anything on" ||
  strIncludes t "events" || strIncludes t "shows" || strIncludes t "what to see" ||
  strIncludes t "what to do" || strIncludes t "happening"

/-- The word `w` matches at the head of `s` with a `\b` after it. -/
def wordAt (s w : List Char) : Bool :=
  w.isPrefixOf s &&
    (match s.drop w.length with
     | [] => true
     | c :: _ => !isWordChar c)

/-- Match a sequence of words separated by `\s+`, with a trailing `\b`. -/
def matchSeqAt : List Char → List (List Char) → Bool
  | _, [] => true
  | s, [w] => wordAt s w
  | s, w :: rest =>
    w.isPrefixOf s &&
      (match s.drop w.length with
       | c :: t => isJsWs c && matchSeqAt ((c :: t).dropWhile isJsWs) rest
       | [] => false)

/-- Scan for a `\b`-anchored word sequence anywhere in `s`. -/
def hasBoundedSeq (ws : List (List Char)) : List Char → Bool → Bool
  | [], _ => false
  | c :: t, atB => (atB && matchSeqAt (c :: t) ws) || hasBoundedSeq ws t (!isWordChar c)

/-- `detectDateLabel(text)`: the five relative labels, in priority order. -/
def detectDateLabel (text : String) : Option String :=
  let t := (toLowerS text).toList
  if hasBoundedSeq ["today".toList] t true then some "today"
  else if hasBoundedSeq ["tomorrow".toList] t true then some "tomorrow"
  else if hasBoundedSeq ["this".toList, "weekend".toList] t true then some "this weekend"
  else if hasBoundedSeq ["this".toList, "week".toList] t true then some "this week"
  else if hasBoundedSeq ["next".toList, "week".toList] t true then some "next week"
  else none

/-- `detectNameish(text)`: quoted name first; then the `about`/`called`/
`named` tail patterns; else, when the text is not a generic ask (no
what's-on cue, no category, no date) and is at least 3 characters, the
whole trimmed text acts as a title query. -/
def detectNameish (text : String) : Option String :=
  match detectQuotedName text with
  | some q => some q
  | none =>
    let m : Option (List Char) :=
      match findKeywordName "about".toList text.toList true with
      | some n => some n
      | none => findCalledNamed text.toList true
    match m with
    | some n => some (String.mk (jsTrim n))
    | none =>
      let t := toLowerS text
      let generic := detectWhatsOn text || (detectCategory text).isSome ||
        (detectDateLabel text).isSome
      if !generic && decide (t.length ≥ 3) then some (jsTrimS text) else none

/-- The classification steps of `askAI(rawText)` (its first half): the
normalized text is fed to the four detectors.  Returns
`(wantsWhatsOn, category, name, dateLabel)`. -/
def classifySteps (rawText : String) : Bool × Option String × Option String × Option String :=
  let text := normalizeText rawText
  (detectWhatsOn text, detectCategory text, detectNameish text, detectDateLabel text)

end Ai

/-! ## Answer builder (`buildAnswer` of the revised `server/lib/ai.js`) -/

namespace Answer

/-- `SHOW_LIMIT = 10`. -/
def SHOW_LIMIT : Nat := 10

/-- A compact hit `{id: String(e.id), title: e.title}`. -/
structure Hit where
  id : String
  title : String
deriving DecidableEq, Repr

/-- The typographic right single quote (U+2019) that the source's template
literals contain. -/
def rsquo : String := String.mk [Char.ofNat 8217]

/-- `buildAnswer({parts, total, shown})`: the deterministic summary
sentence and the minimal hit list. -/
def buildAnswer (parts : List String) (total : Nat) (shown : List Events.EventLite) :
    String × List Hit :=
  let shownCount := shown.length
  let facet := if parts.length ≠ 0 then " for " ++ String.intercalate " " parts else ""
  let answer :=
    if total = 0 then
      "I couldn" ++ rsquo ++ "t find any events" ++ facet ++ "."
    else
      "I found " ++ toString total ++ " event" ++ (if total = 1 then "" else "s") ++ facet ++
        ". Showing up to " ++ toString (min SHOW_LIMIT shownCount) ++ "."
  (answer, shown.map (fun e => { id := e.id, title := e.title }))

end Answer

/-! ## Language-model bridge (`server/lib/llm.js`, both variants)

A chunk is the text a body chunk decodes to (`TextDecoder` in streaming
mode, so byte-level splits inside a code point behave as some character-
level split).  `BodyOutcome` is the behaviour of the upstream response:
an HTTP/network failure before any chunk (the `throw` paths), a body that
iterates to completion, or a body whose iteration throws after some
chunks (timeout abort). -/

namespace Llm

/-- The single final callback of a `streamChat` run. -/
inductive Final where
  | done (text : String) : Final
  | error (msg : String) : Final
deriving DecidableEq, Repr

/-- The upstream side of one `streamChat` call. -/
inductive BodyOutcome where
  | httpFail (msg : String) : BodyOutcome
  | chunks (cs : List (List Char)) : BodyOutcome
  | chunksThenAbort (cs : List (List Char)) (msg : String) : BodyOutcome

/-- Split on `'\n'`: the complete lines and the trailing remainder. -/
def splitNL : List Char → List (List Char) × List Char
  | [] => ([], [])
  | c :: cs =>
    if c = '\n' then ([] :: (splitNL cs).1, (splitNL cs).2)
    else
      match splitNL cs with
      | ([], r) => ([], c :: r)
      | (l :: ls, r) => ((c :: l) :: ls, r)

/-- `chunk.split("\n")`: every part, trailing remainder included. -/
def splitAll (s : List Char) : List (List Char) :=
  (splitNL s).1 ++ [(splitNL s).2]

/-- Remove one trailing `'\r'`.  Splitting on `/\r?\n/` is the same as
splitting on `'\n'` and removing one trailing `'\r'` from each complete
line: every separator the regex consumes is a `'\n'` with an optional
immediately-preceding `'\r'`. -/
def stripCR (l : List Char) : List Char :=
  match l.getLast? with
  | some c => if c = '\r' then l.dropLast else l
  | none => l

/-- `json?.choices?.[0]?.delta?.content`. -/
def deltaField (j : Json) : Option Json :=
  ((j.getField "choices").bind Json.index0).bind
    (fun x => (x.getField "delta").bind (fun d => d.getField "content"))

/-- `json?.choices?.[0]?.message?.content`. -/
def messageField (j : Json) : Option Json :=
  ((j.getField "choices").bind Json.index0).bind
    (fun x => (x.getField "message").bind (fun d => d.getField "content"))

/-- `json?.choices?.[0]?.finish_reason`, then `fr && fr !== null`. -/
def frTruthy (j : Json) : Bool :=
  match ((j.getField "choices").bind Json.index0).bind (fun x => x.getField "finish_reason") with
  | some v => v.jsTruthy
  | none => false

/-- The simple variant's delta: `delta?.content` only, emitted when it is
a non-empty string. -/
def deltaTokenS (j : Json) : Option String :=
  match deltaField j with
  | some (Json.str s) => if s ≠ "" then some s else none
  | _ => none

/-- The buffered variant's delta:
`delta?.content ?? message?.content ?? ""`, emitted when the result is a
non-empty string. -/
def deltaTokenB (j : Json) : Option String :=
  let d := if !Json.nullish (deltaField j) then (deltaField j).getD Json.null
    else if !Json.nullish (messageField j) then (messageField j).getD Json.null
    else Json.str ""
  match d with
  | Json.str s => if s ≠ "" then some s else none
  | _ => none

end Llm

/-! ### `streamChat` of `server/lib/llm.js`: each chunk is split on `"\n"`
on its own — no carry-over buffer; only `data:`-prefixed lines count. -/

namespace LlmS

/-- Loop state: still reading, or a final callback has fired (`return`). -/
inductive St where
  | running (full : List Char) (out : List String) : St
  | finished (out : List String) (fin : Llm.Final) : St

/-- One line of the inner `for (const line of lines)` loop. -/
def procLine (full : List Char) (out : List String) (line : List Char) :
    (List Char × List String) ⊕ (List String × Llm.Final) :=
  let l := jsTrim line
  if l.isEmpty || !("data:".toList.isPrefixOf l) then Sum.inl (full, out)
  else
    let dat := jsTrim (l.drop 5)
    if dat = "[DONE]".toList then Sum.inr (out, Llm.Final.done (String.mk full))
    else
      match jsonParse dat with
      | none => Sum.inl (full, out)
      | some j =>
        match Llm.deltaTokenS j with
        | some d => Sum.inl (full ++ d.toList, out ++ [d])
        | none => Sum.inl (full, out)

/-- Run the line loop; a final callback stops processing (`return`). -/
def runLines (full : List Char) (out : List String) :
    List (List Char) → (List Char × List String) ⊕ (List String × Llm.Final)
  | [] => Sum.inl (full, out)
  | l :: ls =>
    match procLine full out l with
    | Sum.inl (f, o) => runLines f o ls
    | Sum.inr fin => Sum.inr fin

/-- One iteration of `for await (const chunk of r.body)`. -/
def feedChunk (st : St) (chunk : List Char) : St :=
  match st with
  | St.finished o f => St.finished o f
  | St.running full out =>
    match runLines full out (Llm.splitAll chunk) with
    | Sum.inl (f, o) => St.running f o
    | Sum.inr (o, fin) => St.finished o fin

/-- A whole `streamChat` call: the emitted `onToken` arguments in order,
and the single final callback (`onDone` or `onError`). -/
def run (b : Llm.BodyOutcome) : List String × Llm.Final :=
  match b with
  | Llm.BodyOutcome.httpFail m => ([], Llm.Final.error m)
  | Llm.BodyOutcome.chunks cs =>
    match cs.foldl feedChunk (St.running [] []) with
    | St.running full out => (out, Llm.Final.done (String.mk full))
    | St.finished out fin => (out, fin)
  | Llm.BodyOutcome.chunksThenAbort cs m =>
    match cs.foldl feedChunk (St.running [] []) with
    | St.running _ out => (out, Llm.Final.error m)
    | St.finished out fin => (out, fin)

end LlmS

/-! ### `streamChat` of the revised `server/lib/llm.js`: incremental
decoder with a carry-over buffer for partial lines; supports bare JSON
lines and the `message`/`finish_reason` shapes. -/

namespace LlmB

/-- Loop state: the carry-over buffer, accumulated text and tokens — or a
fired final callback. -/
inductive St where
  | running (buffer full : List Char) (out : List String) : St
  | finished (out : List String) (fin : Llm.Final) : St

/-- One complete line of the buffered loop. -/
def procLine (full : List Char) (out : List String) (raw : List Char) :
    (List Char × List String) ⊕ (List String × Llm.Final) :=
  let line := jsTrim raw
  if line.isEmpty then Sum.inl (full, out)
  else
    let payload := if "data:".toList.isPrefixOf line then jsTrim (line.drop 5) else line
    if payload = "[DONE]".toList then Sum.inr (out, Llm.Final.done (String.mk full))
    else
      match jsonParse payload with
      | none => Sum.inl (full, out)
      | some j =>
        let acc := match Llm.deltaTokenB j with
          | some d => (full ++ d.toList, out ++ [d])
          | none => (full, out)
        if Llm.frTruthy j then Sum.inr (acc.2, Llm.Final.done (String.mk acc.1))
        else Sum.inl acc

/-- Run the line loop; a final callback stops processing (`return`). -/
def runLines (full : List Char) (out : List String) :
    List (List Char) → (List Char × List String) ⊕ (List String × Llm.Final)
  | [] => Sum.inl (full, out)
  | l :: ls =>
    match procLine full out l with
    | Sum.inl (f, o) => runLines f o ls
    | Sum.inr fin => Sum.inr fin

/-- One iteration of the chunk loop: append to the buffer, split off the
complete lines (`buffer.split(/\r?\n/)` with the last partial kept), and
process them. -/
def feedChunk (st : St) (chunk : List Char) : St :=
  match st with
  | St.finished o f => St.finished o f
  | St.running buf full out =>
    let p := Llm.splitNL (buf ++ chunk)
    match runLines full out (p.1.map Llm.stripCR) with
    | Sum.inl (f, o) => St.running p.2 f o
    | Sum.inr (o, fin) => St.finished o fin

/-- A whole buffered `streamChat` call: `onToken` arguments in order and
the single final callback. -/
def run (b : Llm.BodyOutcome) : List String × Llm.Final :=
  match b with
  | Llm.BodyOutcome.httpFail m => ([], Llm.Final.error m)
  | Llm.BodyOutcome.chunks cs =>
    match cs.foldl feedChunk (St.running [] [] []) with
    | St.running _ full out => (out, Llm.Final.done (String.mk full))
    | St.finished out fin => (out, fin)
  | Llm.BodyOutcome.chunksThenAbort cs m =>
    match cs.foldl feedChunk (St.running [] [] []) with
    | St.running _ _ out => (out, Llm.Final.error m)
    | St.finished out fin => (out, fin)

end LlmB

/-! ## Route handlers (`server/index.js`) -/

namespace Srv

/-- A JSON response body (the shapes the modelled routes produce). -/
inductive Body where
  | rows (xs : List Events.EventLite) : Body
  | record (r : Events.EventRecord) : Body
  | errObj (msg : String) : Body

/-- An HTTP response: status and JSON body. -/
structure Resp where
  status : Nat
  body : Body

/-- `GET /api/events`: clamp `Number(req.query.limit || 50)` into
`[1, 100]` (`NaN` propagates through the clamp), take
`String(req.query.q || "")`, and serve `findEvents`; a thrown error
becomes `500 {error}`. -/
def apiEvents (st : Events.CacheState) (t : Nat)
    (upstream : Except String (List Events.RawEvent))
    (limitParam qParam : Option String) : Resp × Events.CacheState :=
  let rawLimit := match limitParam with
    | some s => if s ≠ "" then jsNumber s else JsNum.int 50
    | none => JsNum.int 50
  let limit := jsMax (JsNum.int 1) (jsMin (JsNum.int 100) rawLimit)
  let q := qParam.getD ""
  match Events.findEvents st t upstream limit q with
  | Except.ok (rows, st', _) => ({ status := 200, body := Body.rows rows }, st')
  | Except.error e => ({ status := 500, body := Body.errObj e }, st)

/-- `GET /api/events/:id`: `getEventById` then 200; the `if (!row)` 404
branch of the source is unreachable because `getEventById` either
resolves with a record object (always truthy) or throws; a thrown error
becomes `500 {error}`. -/
def apiEventById (st : Events.CacheState) (t : Nat) (id : String)
    (candidates : List Events.Candidate) : Resp × Events.CacheState :=
  match Events.getEventById st t id candidates with
  | Except.ok (row, st') => ({ status := 200, body := Body.record row }, st')
  | Except.error e => ({ status := 500, body := Body.errObj e }, st)

/-! ### Webhook (`shouldDrop` + `POST /webhooks/wp`) -/

/-- `Map.get` on the de-dupe ledger (insertion-ordered association list). -/
def recentGet (recent : List (String × Nat)) (k : String) : Option Nat :=
  (recent.find? (fun kv => kv.1 == k)).map (fun kv => kv.2)

/-- `Map.set`: update in place, else append. -/
def recentSet (recent : List (String × Nat)) (k : String) (v : Nat) : List (String × Nat) :=
  match recent with
  | [] => [(k, v)]
  | (k', v') :: t => if k' = k then (k, v) :: t else (k', v') :: recentSet t k v

/-- `shouldDrop(key, windowMs = 2000)`: read the last-seen time, record
`now`, opportunistically sweep entries older than `2 * windowMs` when the
ledger exceeds 500 entries, and report whether the previous delivery was
less than `windowMs` ago (`last && now - last < windowMs`; a stored
timestamp `0` is falsy). -/
def shouldDrop (recent : List (String × Nat)) (key : String) (t : Nat) :
    Bool × List (String × Nat) :=
  let last := recentGet recent key
  let recent1 := recentSet recent key t
  let recent2 :=
    if recent1.length > 500 then
      recent1.filter (fun kv => !((t : Int) - kv.2 > 2 * 2000))
    else recent1
  let dropped := match last with
    | some l => l ≠ 0 && (t : Int) - l < 2000
    | none => false
  (dropped, recent2)

/-- The observable outcome of one `POST /webhooks/wp`. -/
structure WebhookResult where
  status : Nat
  ok : Bool
  dropped : Bool
  invalidated : Bool
  broadcast : Bool
deriving DecidableEq, Repr

/-- `POST /webhooks/wp`: shared-secret check, `{id}:{action}` de-dupe,
then cache invalidation + `event-updated` broadcast + `{ok, received}`. -/
def webhookWp (secretOk : Bool) (recent : List (String × Nat))
    (cache : Events.CacheState) (t : Nat) (id action : String) :
    WebhookResult × List (String × Nat) × Events.CacheState :=
  if !secretOk then
    ({ status := 401, ok := false, dropped := false, invalidated := false, broadcast := false },
      recent, cache)
  else
    let key := id ++ ":" ++ action
    let r := shouldDrop recent key t
    if r.1 then
      ({ status := 200, ok := true, dropped := true, invalidated := false, broadcast := false },
        r.2, cache)
    else
      ({ status := 200, ok := true, dropped := false, invalidated := true, broadcast := true },
        r.2, Events.invalidateEventsCache cache)

/-! ### Streaming chat (`POST /ai/chat`) -/

/-- One SSE frame of the `/ai/chat` stream.  `hello` is the initial
`event: hello` ack; `token` is a `data: {"token": …}` delta; `doneF` is
the terminal `event: done`; `errorF` the in-band `event: error`.  `hitsF`
stands for an `event: hits` frame — the vocabulary of the documented
streaming contract; no code path of the handler writes one. -/
inductive Frame where
  | hello : Frame
  | token (t : String) : Frame
  | doneF (text : String) : Frame
  | errorF (msg : String) : Frame
  | hitsF : Frame
deriving DecidableEq, Repr

/-- What the caller of `/ai/chat` receives: a 400, a committed SSE stream
(closed after its last frame), or the proxied one-shot `/ai/ask` JSON
answer for `{message, limit}` (the fallback when no streaming helper is
available; a proxy failure still yields a JSON body via the
`!res.headersSent` 500 branch). -/
inductive ChatResponse where
  | badRequest : ChatResponse
  | streamed (frames : List Frame) : ChatResponse
  | jsonFallback (message : String) : ChatResponse
deriving DecidableEq, Repr

/-- `POST /ai/chat`: trim the message (400 when empty); with a streaming
helper, write the `hello` frame, then forward each `onToken` delta as a
token frame and the single final callback as the `done`/`error` frame,
ending the stream; without one, proxy to `/ai/ask`. -/
def aiChat (message : String) (streamAvailable : Bool) (llm : Llm.BodyOutcome) : ChatResponse :=
  let m := jsTrimS message
  if m = "" then ChatResponse.badRequest
  else if streamAvailable then
    let r := LlmS.run llm
    ChatResponse.streamed (Frame.hello :: (r.1.map Frame.token ++
      [match r.2 with
       | Llm.Final.done txt => Frame.doneF txt
       | Llm.Final.error e => Frame.errorF e]))
  else ChatResponse.jsonFallback m

/-- Frame classifiers used to state the streaming contract. -/
def isHits : Frame → Bool
  | Frame.hitsF => true
  | _ => false

def isDone : Frame → Bool
  | Frame.doneF _ => true
  | _ => false

def isError : Frame → Bool
  | Frame.errorF _ => true
  | _ => false

def isToken : Frame → Bool
  | Frame.token _ => true
  | _ => false

def isHello : Frame → Bool
  | Frame.hello => true
  | _ => false

end Srv

/-! ## Spec-side helper definitions (used only to state properties) -/

/-- `s` ends with `suffix` (character-list formulation, decidable). -/
def strEndsWith (s suffix : String) : Bool :=
  s.toList.drop (s.toList.length - suffix.toList.length) = suffix.toList

/-- A `streamChat` (simple variant) state that has not fired `onError`:
used to show a completed body iteration always ends in `onDone`. -/
def LlmS.noErrSt : LlmS.St → Prop
  | LlmS.St.running _ _ => True
  | LlmS.St.finished _ (Llm.Final.done _) => True
  | LlmS.St.finished _ (Llm.Final.error _) => False

/-! # Theorems -/

/-! ## Helper lemmas -/

/-- A `NaN` limit empties both branches of the filter+slice. -/
theorem filterSlice_nan (out : List Events.EventLite) (q : String) :
    Events.filterSlice out q JsNum.nan = [] := by
  unfold Events.filterSlice jsSliceTo
  split <;> rfl

/-! ## C4 — list-cache TTL boundary -/

/-- Claim C4: a `findEvents` call while the list slot (populated at `c`)
is younger than the 60 s TTL is served from the cache without touching
upstream and leaves the state unchanged; once the age reaches the TTL the
call refetches, stores `{ts: t, data: mapped upstream}` and filters from
the fresh set.  Instantiating `t₁ := c + 59000` and `t₂ := c + 61000`
gives the 59 s/61 s boundary cases. -/
theorem findEvents_ttl_boundary
    (c : Nat) (d : List Events.EventLite) (dc : List (String × (Nat × Events.EventRecord)))
    (t₁ t₂ : Nat) (up : Except String (List Events.RawEvent)) (raw : List Events.RawEvent)
    (limit : JsNum) (q : String)
    (h₁ : (t₁ : Int) - c < Events.TTL_LIST_MS)
    (h₂ : Events.TTL_LIST_MS ≤ (t₂ : Int) - c) :
    Events.findEvents ⟨⟨c, some d⟩, dc⟩ t₁ up limit q
      = Except.ok (Events.filterSlice d q limit, ⟨⟨c, some d⟩, dc⟩, false)
    ∧ Events.findEvents ⟨⟨c, some d⟩, dc⟩ t₂ (Except.ok raw) limit q
      = Except.ok (Events.filterSlice (raw.map Events.mapListRecord) q limit,
          ⟨⟨t₂, some (raw.map Events.mapListRecord)⟩, dc⟩, true) := by
  constructor
  · show (if (t₁ : Int) - c < Events.TTL_LIST_MS then _ else _) = _
    rw [if_pos h₁]
  · show (if (t₂ : Int) - c < Events.TTL_LIST_MS then _ else _) = _
    rw [if_neg (not_lt.mpr h₂)]

/-- Witness for C4 at the spec's boundary points: slot filled at 1000 ms,
reads at 60000 ms (= +59 s, cached) and 62000 ms (= +61 s, refetched). -/
theorem findEvents_ttl_boundary_witness :
    Events.findEvents ⟨⟨1000, some [⟨"1", "Comedy Night"⟩]⟩, []⟩ 60000
        (Except.ok [⟨"2", some "Fresh", none⟩]) (JsNum.int 50) ""
      = Except.ok ([⟨"1", "Comedy Night"⟩], ⟨⟨1000, some [⟨"1", "Comedy Night"⟩]⟩, []⟩, false)
    ∧ Events.findEvents ⟨⟨1000, some [⟨"1", "Comedy Night"⟩]⟩, []⟩ 62000
        (Except.ok [⟨"2", some "Fresh", none⟩]) (JsNum.int 50) ""
      = Except.ok ([⟨"2", "Fresh"⟩], ⟨⟨62000, some [⟨"2", "Fresh"⟩]⟩, []⟩, true) :=
  findEvents_ttl_boundary 1000 [⟨"1", "Comedy Night"⟩] [] 60000 62000
    (Except.ok [⟨"2", some "Fresh", none⟩]) [⟨"2", some "Fresh", none⟩] (JsNum.int 50) ""
    (by decide) (by decide)

/-! ## C5 — invalidation idempotence and forced refetch -/

/-- Claim C5: `invalidateEventsCache` is idempotent, and any `findEvents`
after an invalidation (with no repopulation in between) refetches from
upstream: its rows and its new state are computed from the upstream
response alone, never from data cached before the invalidation. -/
theorem invalidate_idempotent_refetch
    (st st' : Events.CacheState) (t : Nat) (raw : List Events.RawEvent)
    (limit : JsNum) (q : String) :
    Events.invalidateEventsCache (Events.invalidateEventsCache st)
      = Events.invalidateEventsCache st
    ∧ Events.findEvents (Events.invalidateEventsCache st') t (Except.ok raw) limit q
      = Except.ok (Events.filterSlice (raw.map Events.mapListRecord) q limit,
          ⟨⟨t, some (raw.map Events.mapListRecord)⟩, []⟩, true) :=
  ⟨rfl, rfl⟩

/-! ## C6 — classifier determinism on the two witness inputs -/

/-- Claim C6: on `'what comedy is on'` the classification steps of `askAI`
detect category `comedy`, no name filter and no date label; on
`'events about "The Maccabees"'` they detect the quoted name
`The Maccabees` and no category. -/
theorem classify_witness_inputs :
    (Ai.detectCategory (Ai.normalizeText "what comedy is on") = some "comedy"
      ∧ Ai.detectNameish (Ai.normalizeText "what comedy is on") = none
      ∧ Ai.detectDateLabel (Ai.normalizeText "what comedy is on") = none)
    ∧ (Ai.detectNameish (Ai.normalizeText "events about \"The Maccabees\"")
          = some "The Maccabees"
      ∧ Ai.detectQuotedName (Ai.normalizeText "events about \"The Maccabees\"")
          = some "The Maccabees"
      ∧ Ai.detectCategory (Ai.normalizeText "events about \"The Maccabees\"") = none) := by
  decide

/-! ## C3 — answer-builder sentences -/

/-- Appending a suffix makes `strEndsWith` true. -/
theorem strEndsWith_append (x y : String) : strEndsWith (x ++ y) y = true := by
  simp [strEndsWith, String.toList]

/-- Claim C3 fails as stated: the zero-total sentence uses the
typographic apostrophe U+2019, not the ASCII `'` the claim fixes, and for
a shown list of 11 records the sentence ends with `Showing up to 10.`
(the `Math.min(SHOW_LIMIT, shown.length)` cap), not `Showing up to 11.`. -/
theorem buildAnswer_claim_counterexample :
    (Answer.buildAnswer [] 0 []).1
        ≠ "I couldn" ++ String.mk [Char.ofNat 39] ++ "t find any events."
    ∧ strEndsWith (Answer.buildAnswer [] 42 (List.replicate 11 ⟨"1", "t"⟩)).1
        ("Showing up to " ++ toString (List.replicate 11
            (Events.EventLite.mk "1" "t")).length ++ ".") = false := by
  constructor
  · decide
  · decide

/-- Claim C3 (amended): `build({facets:["comedy"], total:3, shown:[a,b,c]})`
gives exactly `"I found 3 events for comedy. Showing up to 3."`;
`build({facets:[], total:0, shown:[]})` gives exactly
`"I couldn’t find any events."` (typographic apostrophe U+2019); and for
every nonzero total the sentence ends with
`"Showing up to {min(10, shown.length)}."`. -/
theorem buildAnswer_sentences (a b c : Events.EventLite) (parts : List String)
    (total : Nat) (shown : List Events.EventLite) (h : total ≠ 0) :
    (Answer.buildAnswer ["comedy"] 3 [a, b, c]).1
        = "I found 3 events for comedy. Showing up to 3."
    ∧ (Answer.buildAnswer [] 0 []).1 = "I couldn" ++ Answer.rsquo ++ "t find any events."
    ∧ strEndsWith (Answer.buildAnswer parts total shown).1
        (". Showing up to " ++ toString (min 10 shown.length) ++ ".") = true := by
  have h1 : (Answer.buildAnswer ["comedy"] 3 [a, b, c]).1
      = (Answer.buildAnswer ["comedy"] 3 [⟨"1", "x"⟩, ⟨"2", "y"⟩, ⟨"3", "z"⟩]).1 := rfl
  have h2 : (Answer.buildAnswer ["comedy"] 3
      [Events.EventLite.mk "1" "x", ⟨"2", "y"⟩, ⟨"3", "z"⟩]).1
      = "I found 3 events for comedy. Showing up to 3." := by decide
  refine ⟨h1.trans h2, by decide, ?_⟩
  unfold Answer.buildAnswer
  simp only [if_neg h]
  have : "I found " ++ toString total ++ " event" ++ (if total = 1 then "" else "s") ++
      (if parts.length ≠ 0 then " for " ++ String.intercalate " " parts else "") ++
      ". Showing up to " ++ toString (min Answer.SHOW_LIMIT shown.length) ++ "."
      = ("I found " ++ toString total ++ " event" ++ (if total = 1 then "" else "s") ++
        (if parts.length ≠ 0 then " for " ++ String.intercalate " " parts else ""))
        ++ (". Showing up to " ++ toString (min 10 shown.length) ++ ".") := by
    simp [String.append_assoc, Answer.SHOW_LIMIT]
  rw [this]
  exact strEndsWith_append _ _

/-- Witness for C3's amended theorem at `total = 5`, one shown record. -/
theorem buildAnswer_sentences_witness :
    (Answer.buildAnswer ["comedy"] 3 [⟨"1", "a"⟩, ⟨"2", "b"⟩, ⟨"3", "c"⟩]).1
        = "I found 3 events for comedy. Showing up to 3."
    ∧ (Answer.buildAnswer [] 0 []).1 = "I couldn" ++ Answer.rsquo ++ "t find any events."
    ∧ strEndsWith (Answer.buildAnswer ["music"] 5 [⟨"1", "a"⟩]).1
        (". Showing up to " ++ toString (min 10 [Events.EventLite.mk "1" "a"].length) ++ ".")
        = true :=
  buildAnswer_sentences ⟨"1", "a"⟩ ⟨"2", "b"⟩ ⟨"3", "c"⟩ ["music"] 5 [⟨"1", "a"⟩] (by decide)

/-! ## C7 — webhook de-dupe -/

/-- Claim C7: with the correct secret, a delivery whose `{id}:{action}`
key was last seen less than 2 s earlier (at a positive timestamp, as
`Date.now()` always is) is answered `200 {ok:true, dropped:true}` with no
invalidation and no broadcast; a first delivery of a key, or one arriving
at least 2 s after the previous identical one, is processed: cache
invalidated, `event-updated` broadcast, `200 {ok:true, received}`. -/
theorem webhook_dedupe
    (recent recent₀ : List (String × Nat)) (cache : Events.CacheState)
    (id action : String) (tPrev t t' : Nat)
    (hGet : Srv.recentGet recent (id ++ ":" ++ action) = some tPrev)
    (hPos : 0 < tPrev)
    (hWin : (t : Int) - tPrev < 2000)
    (hFar : (2000 : Int) ≤ (t' : Int) - tPrev)
    (hNone : Srv.recentGet recent₀ (id ++ ":" ++ action) = none) :
    ((Srv.webhookWp true recent cache t id action).1
        = { status := 200, ok := true, dropped := true, invalidated := false, broadcast := false }
      ∧ (Srv.webhookWp true recent cache t id action).2.2 = cache)
    ∧ ((Srv.webhookWp true recent₀ cache t id action).1
        = { status := 200, ok := true, dropped := false, invalidated := true, broadcast := true }
      ∧ (Srv.webhookWp true recent₀ cache t id action).2.2
          = Events.invalidateEventsCache cache)
    ∧ ((Srv.webhookWp true recent cache t' id action).1
        = { status := 200, ok := true, dropped := false, invalidated := true, broadcast := true }
      ∧ (Srv.webhookWp true recent cache t' id action).2.2
          = Events.invalidateEventsCache cache) := by
  have hne : tPrev ≠ 0 := Nat.pos_iff_ne_zero.mp hPos
  refine ⟨?_, ?_, ?_⟩
  · have hdrop : (Srv.shouldDrop recent (id ++ ":" ++ action) t).1 = true := by
      simp [Srv.shouldDrop, hGet, hne, hWin]
    simp [Srv.webhookWp, hdrop]
  · have hdrop : (Srv.shouldDrop recent₀ (id ++ ":" ++ action) t).1 = false := by
      simp [Srv.shouldDrop, hNone]
    simp [Srv.webhookWp, hdrop]
  · have hdrop : (Srv.shouldDrop recent (id ++ ":" ++ action) t').1 = false := by
      simp [Srv.shouldDrop, hGet, not_lt.mpr hFar]
    simp [Srv.webhookWp, hdrop]

/-- Witness for C7: key `5:updated` last processed at 1000 ms; a repeat at
2500 ms (1.5 s later) is dropped; at 3200 ms (2.2 s later) it is
processed; a fresh key is processed. -/
theorem webhook_dedupe_witness :
    ((Srv.webhookWp true [("5:updated", 1000)] ⟨⟨7, some []⟩, []⟩ 2500 "5" "updated").1
        = { status := 200, ok := true, dropped := true, invalidated := false, broadcast := false }
      ∧ (Srv.webhookWp true [("5:updated", 1000)] ⟨⟨7, some []⟩, []⟩ 2500 "5" "updated").2.2
          = ⟨⟨7, some []⟩, []⟩)
    ∧ ((Srv.webhookWp true [] ⟨⟨7, some []⟩, []⟩ 2500 "5" "updated").1
        = { status := 200, ok := true, dropped := false, invalidated := true, broadcast := true }
      ∧ (Srv.webhookWp true [] ⟨⟨7, some []⟩, []⟩ 2500 "5" "updated").2.2
          = Events.invalidateEventsCache ⟨⟨7, some []⟩, []⟩)
    ∧ ((Srv.webhookWp true [("5:updated", 1000)] ⟨⟨7, some []⟩, []⟩ 3200 "5" "updated").1
        = { status := 200, ok := true, dropped := false, invalidated := true, broadcast := true }
      ∧ (Srv.webhookWp true [("5:updated", 1000)] ⟨⟨7, some []⟩, []⟩ 3200 "5" "updated").2.2
          = Events.invalidateEventsCache ⟨⟨7, some []⟩, []⟩) :=
  webhook_dedupe [("5:updated", 1000)] [] ⟨⟨7, some []⟩, []⟩ "5" "updated" 1000 2500 3200
    (by decide) (by decide) (by decide) (by decide) (by decide)

/-! ## C10 — NaN limit empties `/api/events` -/

/-- Claim C10: `GET /api/events?limit=abc`: `Number("abc")` is `NaN`,
`Math.max(1, Math.min(100, NaN))` is `NaN`, and `slice(0, NaN)` is empty,
so the endpoint answers `200` with the empty array (not the 50-item
default), whatever the cache state and upstream data. -/
theorem api_events_nan_limit (st : Events.CacheState) (t : Nat)
    (raw : List Events.RawEvent) (qParam : Option String) :
    (Srv.apiEvents st t (Except.ok raw) (some "abc") qParam).1
      = { status := 200, body := Srv.Body.rows [] } := by
  have hnan : jsMax (JsNum.int 1) (jsMin (JsNum.int 100) (jsNumber "abc")) = JsNum.nan := by
    decide
  unfold Srv.apiEvents
  unfold Events.findEvents
  cases hd : st.listCache.data with
  | none => simp [hnan, filterSlice_nan]
  | some cached =>
    by_cases hfresh : (t : Int) - st.listCache.ts < Events.TTL_LIST_MS
    · simp [hfresh, hnan, filterSlice_nan]
    · simp [hfresh, hnan, filterSlice_nan]

/-! ## C8 — detail lookup failure gives 500, not the documented 404 -/

/-- When every candidate fetch rejects, the candidate loop throws. -/
theorem firstAccepted_all_fail (cs : List Events.Candidate) :
    ∀ le : Option String, (∀ c ∈ cs, ∃ m, c = Events.Candidate.fail m) →
      ∃ e, Events.firstAccepted cs le = Except.error e := by
  induction cs with
  | nil => exact fun le _ => ⟨le.getD "no detail endpoint found", rfl⟩
  | cons c rest ih =>
    intro le hall
    obtain ⟨m, hm⟩ := hall c (by simp)
    subst hm
    simpa [Events.firstAccepted] using ih (some m) (fun d hd => hall d (by simp [hd]))

/-- Claim C8 states the intended contract (NotFound → 404); the code
answers 500: with no fresh cache entry and every upstream candidate
failing, `getEventById` throws the last fetch error (there is no
NotFound marker), the route's catch-all maps it to `500 {error}`, and the
route's own `if (!row) → 404` branch is unreachable because
`getEventById` never resolves with a falsy value. -/
theorem api_event_by_id_all_fail_500
    (st : Events.CacheState) (t : Nat) (id : String) (cs : List Events.Candidate)
    (hmiss : Events.detailGet st.detailCache id = none)
    (hall : ∀ c ∈ cs, ∃ m, c = Events.Candidate.fail m) :
    (Srv.apiEventById st t id cs).1.status = 500
    ∧ (Srv.apiEventById st t id cs).1.status ≠ 404 := by
  obtain ⟨e, he⟩ := firstAccepted_all_fail cs none hall
  constructor <;> simp [Srv.apiEventById, Events.getEventById, hmiss, he]

/-- Witness for C8's theorem: empty caches, id `9999`, all three candidate
endpoints failing with upstream 404s — the response status is 500. -/
theorem api_event_by_id_all_fail_500_witness :
    (Srv.apiEventById ⟨⟨0, none⟩, []⟩ 0 "9999"
        [Events.Candidate.fail "404 Not Found", Events.Candidate.fail "404 Not Found",
         Events.Candidate.fail "404 Not Found"]).1.status = 500
    ∧ (Srv.apiEventById ⟨⟨0, none⟩, []⟩ 0 "9999"
        [Events.Candidate.fail "404 Not Found", Events.Candidate.fail "404 Not Found",
         Events.Candidate.fail "404 Not Found"]).1.status ≠ 404 :=
  api_event_by_id_all_fail_500 ⟨⟨0, none⟩, []⟩ 0 "9999"
    [Events.Candidate.fail "404 Not Found", Events.Candidate.fail "404 Not Found",
     Events.Candidate.fail "404 Not Found"] rfl
    (by intro c hc
        simp only [List.mem_cons, List.mem_singleton, List.not_mem_nil, or_false] at hc
        rcases hc with h | h | h <;> exact ⟨"404 Not Found", h⟩)

/-! ## C1 — the /ai/chat stream has no hits frame; hello/done bracket it -/

/-- The simple `streamChat` line handler only ever finishes with `onDone`
(its `[DONE]` branch); it never finishes with `onError`. -/
theorem llmS_procLine_inr (full : List Char) (out : List String) (l : List Char)
    (pr : List String × Llm.Final)
    (h : LlmS.procLine full out l = Sum.inr pr) :
    pr = (out, Llm.Final.done (String.mk full)) := by
  simp only [LlmS.procLine] at h
  split at h
  · simp at h
  · split at h
    · cases h; rfl
    · split at h
      · simp at h
      · split at h <;> simp at h

/-- A line-loop run never finishes with `onError` (simple variant). -/
theorem llmS_runLines_inr (ls : List (List Char)) :
    ∀ full out pr, LlmS.runLines full out ls = Sum.inr pr →
      ∃ txt, pr.2 = Llm.Final.done txt := by
  induction ls with
  | nil => intro full out pr h; simp [LlmS.runLines] at h
  | cons l ls ih =>
    intro full out pr h
    simp only [LlmS.runLines] at h
    cases hp : LlmS.procLine full out l with
    | inl p =>
      obtain ⟨f, o⟩ := p
      rw [hp] at h
      exact ih f o pr h
    | inr q =>
      rw [hp] at h
      have hq : q = pr := by injection h
      have := llmS_procLine_inr full out l q hp
      rw [← hq, this]
      exact ⟨String.mk full, rfl⟩

/-- Feeding chunks preserves the no-`onError` invariant. -/
theorem llmS_feedChunk_noErr (st : LlmS.St) (c : List Char)
    (h : LlmS.noErrSt st) : LlmS.noErrSt (LlmS.feedChunk st c) := by
  cases st with
  | finished o f =>
    cases f with
    | done t => exact h
    | error e => exact absurd h (by simp [LlmS.noErrSt])
  | running full out =>
    have heq : LlmS.feedChunk (LlmS.St.running full out) c =
        (match LlmS.runLines full out (Llm.splitAll c) with
         | Sum.inl (f, o) => LlmS.St.running f o
         | Sum.inr (o, fin) => LlmS.St.finished o fin) := rfl
    rw [heq]
    cases hr : LlmS.runLines full out (Llm.splitAll c) with
    | inl p => obtain ⟨f, o⟩ := p; exact trivial
    | inr q =>
      obtain ⟨txt, htxt⟩ := llmS_runLines_inr _ full out q hr
      obtain ⟨o, fin⟩ := q
      simp only at htxt
      rw [htxt]
      exact trivial

/-- A body that iterates to completion always ends in the `onDone`
callback (simple variant). -/
theorem llmS_run_chunks_done (cs : List (List Char)) :
    ∃ txt, (LlmS.run (Llm.BodyOutcome.chunks cs)).2 = Llm.Final.done txt := by
  have hfold : LlmS.noErrSt (cs.foldl LlmS.feedChunk (LlmS.St.running [] [])) := by
    have : ∀ st, LlmS.noErrSt st → LlmS.noErrSt (cs.foldl LlmS.feedChunk st) := by
      induction cs with
      | nil => exact fun st h => h
      | cons c cs ih => exact fun st h => ih _ (llmS_feedChunk_noErr st c h)
    exact this _ trivial
  have heq : LlmS.run (Llm.BodyOutcome.chunks cs) =
      (match cs.foldl LlmS.feedChunk (LlmS.St.running [] []) with
       | LlmS.St.running full out => (out, Llm.Final.done (String.mk full))
       | LlmS.St.finished out fin => (out, fin)) := rfl
  rw [heq]
  cases hst : cs.foldl LlmS.feedChunk (LlmS.St.running [] []) with
  | running full out => exact ⟨String.mk full, rfl⟩
  | finished out fin =>
    rw [hst] at hfold
    cases fin with
    | done t => exact ⟨t, rfl⟩
    | error e => exact absurd hfold (by simp [LlmS.noErrSt])

/-- Claim C1 as stated is false on the code: a concrete successful
`/ai/chat` stream (message `"hi"`, one complete SSE data line carrying
one delta) is `hello`, one token, `done` — it contains zero `hits`
frames, not exactly one. -/
theorem ai_chat_hits_counterexample :
    Srv.aiChat "hi" true (Llm.BodyOutcome.chunks
        [("data: \x7b\"choices\":[\x7b\"delta\":\x7b\"content\":\"hi\"\x7d\x7d]\x7d\n").toList])
      = Srv.ChatResponse.streamed
          [Srv.Frame.hello, Srv.Frame.token "hi", Srv.Frame.doneF "hi"]
    ∧ ¬ ([Srv.Frame.hello, Srv.Frame.token "hi", Srv.Frame.doneF "hi"].countP Srv.isHits
          = 1) := by
  constructor
  · decide
  · decide

/-- Claim C1 (amended): a successful `/ai/chat` stream — non-empty
trimmed message, streaming helper available, LLM body iterated to
completion — contains no `hits` frame at all; it opens with a single
`hello` frame that precedes every token frame, and it contains exactly
one `done` frame, which is the terminal frame. -/
theorem ai_chat_success_stream (m : String) (cs : List (List Char))
    (hm : ¬ jsTrimS m = "") :
    ∃ (ts : List String) (txt : String),
      Srv.aiChat m true (Llm.BodyOutcome.chunks cs)
        = Srv.ChatResponse.streamed
            (Srv.Frame.hello :: (ts.map Srv.Frame.token ++ [Srv.Frame.doneF txt]))
      ∧ (Srv.Frame.hello :: (ts.map Srv.Frame.token ++ [Srv.Frame.doneF txt])).countP
          Srv.isHits = 0
      ∧ (Srv.Frame.hello :: (ts.map Srv.Frame.token ++ [Srv.Frame.doneF txt])).countP
          Srv.isDone = 1
      ∧ (Srv.Frame.hello :: (ts.map Srv.Frame.token ++ [Srv.Frame.doneF txt])).getLast?
          = some (Srv.Frame.doneF txt) := by
  obtain ⟨txt, htxt⟩ := llmS_run_chunks_done cs
  refine ⟨(LlmS.run (Llm.BodyOutcome.chunks cs)).1, txt, ?_, ?_, ?_, ?_⟩
  · unfold Srv.aiChat
    rw [if_neg hm, if_pos rfl]
    have : (match (LlmS.run (Llm.BodyOutcome.chunks cs)).2 with
        | Llm.Final.done t => Srv.Frame.doneF t
        | Llm.Final.error e => Srv.Frame.errorF e) = Srv.Frame.doneF txt := by
      rw [htxt]
    rw [← this]
  · simp [List.countP_cons, List.countP_append, List.countP_map, Srv.isHits,
      List.countP_eq_zero, Function.comp]
  · simp [List.countP_cons, List.countP_append, List.countP_map, Srv.isDone,
      List.countP_eq_zero, Function.comp]
  · rw [show Srv.Frame.hello :: ((LlmS.run (Llm.BodyOutcome.chunks cs)).1.map Srv.Frame.token
        ++ [Srv.Frame.doneF txt])
      = (Srv.Frame.hello :: (LlmS.run (Llm.BodyOutcome.chunks cs)).1.map Srv.Frame.token)
        ++ [Srv.Frame.doneF txt] from rfl]
    exact List.getLast?_concat _

/-- Witness for C1's amended theorem: message `"hi"`, one complete data
line delivered in one chunk. -/
theorem ai_chat_success_stream_witness :
    ∃ (ts : List String) (txt : String),
      Srv.aiChat "hi" true (Llm.BodyOutcome.chunks
          [("data: \x7b\"choices\":[\x7b\"delta\":\x7b\"content\":\"hi\"\x7d\x7d]\x7d\n").toList])
        = Srv.ChatResponse.streamed
            (Srv.Frame.hello :: (ts.map Srv.Frame.token ++ [Srv.Frame.doneF txt]))
      ∧ (Srv.Frame.hello :: (ts.map Srv.Frame.token ++ [Srv.Frame.doneF txt])).countP
          Srv.isHits = 0
      ∧ (Srv.Frame.hello :: (ts.map Srv.Frame.token ++ [Srv.Frame.doneF txt])).countP
          Srv.isDone = 1
      ∧ (Srv.Frame.hello :: (ts.map Srv.Frame.token ++ [Srv.Frame.doneF txt])).getLast?
          = some (Srv.Frame.doneF txt) :=
  ai_chat_success_stream "hi"
    [("data: \x7b\"choices\":[\x7b\"delta\":\x7b\"content\":\"hi\"\x7d\x7d]\x7d\n").toList]
    (by decide)

/-! ## C2 — streaming-failure contract of /ai/chat -/

/-- Claim C2: with a non-empty message, (i) when the stream is committed
(helper available — the `hello` frame is written before the LLM call) and
the streaming layer fails, the handler emits the buffered tokens then a
single in-band `error` frame, terminal, and closes the stream — no JSON
body; (ii) when no frame has been written (no streaming helper), it
answers with the proxied one-shot `/ai/ask` JSON body; (iii) every
execution produces exactly one of the two — never both, never neither. -/
theorem ai_chat_error_contract
    (m : String) (llm : Llm.BodyOutcome) (ts : List String) (e : String)
    (hm : ¬ jsTrimS m = "")
    (herr : LlmS.run llm = (ts, Llm.Final.error e)) :
    (Srv.aiChat m true llm
        = Srv.ChatResponse.streamed
            (Srv.Frame.hello :: (ts.map Srv.Frame.token ++ [Srv.Frame.errorF e]))
      ∧ (Srv.Frame.hello :: (ts.map Srv.Frame.token ++ [Srv.Frame.errorF e])).countP
          Srv.isError = 1
      ∧ (Srv.Frame.hello :: (ts.map Srv.Frame.token ++ [Srv.Frame.errorF e])).getLast?
          = some (Srv.Frame.errorF e))
    ∧ Srv.aiChat m false llm = Srv.ChatResponse.jsonFallback (jsTrimS m)
    ∧ (∀ s : Bool, (∃ fs, Srv.aiChat m s llm = Srv.ChatResponse.streamed fs)
        ∨ Srv.aiChat m s llm = Srv.ChatResponse.jsonFallback (jsTrimS m))
    ∧ (∀ s : Bool, ¬ ((∃ fs, Srv.aiChat m s llm = Srv.ChatResponse.streamed fs)
        ∧ Srv.aiChat m s llm = Srv.ChatResponse.jsonFallback (jsTrimS m))) := by
  have hstream : Srv.aiChat m true llm
      = Srv.ChatResponse.streamed
          (Srv.Frame.hello :: (ts.map Srv.Frame.token ++ [Srv.Frame.errorF e])) := by
    unfold Srv.aiChat
    rw [if_neg hm, if_pos rfl, herr]
  have hjson : Srv.aiChat m false llm = Srv.ChatResponse.jsonFallback (jsTrimS m) := by
    simp [Srv.aiChat, hm]
  refine ⟨⟨hstream, ?_, ?_⟩, hjson, ?_, ?_⟩
  · simp [List.countP_cons, List.countP_append, List.countP_map, Srv.isError,
      List.countP_eq_zero, Function.comp]
  · rw [show Srv.Frame.hello :: (ts.map Srv.Frame.token ++ [Srv.Frame.errorF e])
        = (Srv.Frame.hello :: ts.map Srv.Frame.token) ++ [Srv.Frame.errorF e] from rfl]
    exact List.getLast?_concat _
  · intro s
    cases s with
    | false => exact Or.inr hjson
    | true => exact Or.inl ⟨_, hstream⟩
  · intro s h
    obtain ⟨⟨fs, h1⟩, h2⟩ := h
    have : Srv.ChatResponse.streamed fs = Srv.ChatResponse.jsonFallback (jsTrimS m) :=
      h1.symm.trans h2
    simp at this

/-- Witness for C2: message `"hi"`, the LLM fetch rejecting before any
chunk (`httpFail`), whose run is `([], error "boom")`. -/
theorem ai_chat_error_contract_witness :
    (Srv.aiChat "hi" true (Llm.BodyOutcome.httpFail "boom")
        = Srv.ChatResponse.streamed [Srv.Frame.hello, Srv.Frame.errorF "boom"]
      ∧ ([Srv.Frame.hello] ++ ((List.map Srv.Frame.token []) ++ [Srv.Frame.errorF "boom"])).countP
          Srv.isError = 1
      ∧ ([Srv.Frame.hello] ++ ((List.map Srv.Frame.token []) ++ [Srv.Frame.errorF "boom"])).getLast?
          = some (Srv.Frame.errorF "boom"))
    ∧ Srv.aiChat "hi" false (Llm.BodyOutcome.httpFail "boom")
        = Srv.ChatResponse.jsonFallback (jsTrimS "hi")
    ∧ (∀ s : Bool, (∃ fs, Srv.aiChat "hi" s (Llm.BodyOutcome.httpFail "boom")
          = Srv.ChatResponse.streamed fs)
        ∨ Srv.aiChat "hi" s (Llm.BodyOutcome.httpFail "boom")
          = Srv.ChatResponse.jsonFallback (jsTrimS "hi"))
    ∧ (∀ s : Bool, ¬ ((∃ fs, Srv.aiChat "hi" s (Llm.BodyOutcome.httpFail "boom")
          = Srv.ChatResponse.streamed fs)
        ∧ Srv.aiChat "hi" s (Llm.BodyOutcome.httpFail "boom")
          = Srv.ChatResponse.jsonFallback (jsTrimS "hi"))) :=
  ai_chat_error_contract "hi" (Llm.BodyOutcome.httpFail "boom") [] "boom"
    (by decide) rfl

/-! ## C9 — chunk-boundary independence of the streaming parser -/

/-- A split with no complete line leaves the input as the remainder. -/
theorem splitNL_no_line (x : List Char) (h : (Llm.splitNL x).1 = []) :
    Llm.splitNL x = ([], x) := by
  induction x with
  | nil => rfl
  | cons c t ih =>
    by_cases hc : c = '\n'
    · subst hc; simp [Llm.splitNL] at h
    · simp only [Llm.splitNL, if_neg hc] at h ⊢
      cases hs : Llm.splitNL t with
      | mk ls r =>
        cases ls with
        | nil =>
          have h2 := ih (by rw [hs])
          rw [hs] at h2
          have hr : r = t := by injection h2 with _ h3
          subst hr
          rfl
        | cons l ls' => rw [hs] at h; simp at h

/-- Splitting a concatenation: the complete lines of `a ++ b` are those of
`a` followed by those of `a`'s remainder prepended to `b`. -/
theorem splitNL_append (a b : List Char) :
    Llm.splitNL (a ++ b)
      = ((Llm.splitNL a).1 ++ (Llm.splitNL ((Llm.splitNL a).2 ++ b)).1,
         (Llm.splitNL ((Llm.splitNL a).2 ++ b)).2) := by
  induction a with
  | nil => simp [Llm.splitNL]
  | cons c t ih =>
    by_cases hc : c = '\n'
    · subst hc
      have hconsL : Llm.splitNL ('\n' :: (t ++ b))
          = ([] :: (Llm.splitNL (t ++ b)).1, (Llm.splitNL (t ++ b)).2) := by
        simp [Llm.splitNL]
      have hcons : Llm.splitNL ('\n' :: t)
          = ([] :: (Llm.splitNL t).1, (Llm.splitNL t).2) := by
        simp [Llm.splitNL]
      rw [List.cons_append, hconsL, ih, hcons]
      simp
    · cases hs : Llm.splitNL t with
      | mk ls r =>
        cases ls with
        | nil =>
          have h0 : Llm.splitNL t = ([], t) := splitNL_no_line t (by rw [hs])
          have hct : Llm.splitNL (c :: t) = ([], c :: t) := by
            simp only [Llm.splitNL, if_neg hc, h0]
          rw [List.cons_append, hct]
          simp
        | cons l ls' =>
          have hct : Llm.splitNL (c :: t) = ((c :: l) :: ls', r) := by
            simp only [Llm.splitNL, if_neg hc, hs]
          have hctb : Llm.splitNL (c :: (t ++ b))
              = ((c :: l) :: (ls' ++ (Llm.splitNL (r ++ b)).1), (Llm.splitNL (r ++ b)).2) := by
            simp only [Llm.splitNL, if_neg hc, ih, hs]
            simp [List.cons_append]
          rw [List.cons_append, hctb, hct]
          simp

/-- Running the line loop over a concatenation of line lists. -/
theorem llmB_runLines_append (L₁ L₂ : List (List Char)) :
    ∀ full out, LlmB.runLines full out (L₁ ++ L₂)
      = (match LlmB.runLines full out L₁ with
         | Sum.inl (f, o) => LlmB.runLines f o L₂
         | Sum.inr x => Sum.inr x) := by
  induction L₁ with
  | nil => intro full out; rfl
  | cons l ls ih =>
    intro full out
    simp only [List.cons_append, LlmB.runLines]
    cases hp : LlmB.procLine full out l with
    | inl p => obtain ⟨f, o⟩ := p; exact ih f o
    | inr q => rfl

/-- Feeding two chunks in sequence equals feeding their concatenation:
the carry-over buffer hands the partial line across the boundary. -/
theorem llmB_feedChunk_append (st : LlmB.St) (a b : List Char) :
    LlmB.feedChunk (LlmB.feedChunk st a) b = LlmB.feedChunk st (a ++ b) := by
  cases st with
  | finished o f => rfl
  | running buf full out =>
    have heq2 : LlmB.feedChunk (LlmB.St.running buf full out) (a ++ b)
        = (match LlmB.runLines full out
              ((Llm.splitNL (buf ++ (a ++ b))).1.map Llm.stripCR) with
           | Sum.inl (f, o) => LlmB.St.running (Llm.splitNL (buf ++ (a ++ b))).2 f o
           | Sum.inr (o, fin) => LlmB.St.finished o fin) := rfl
    have hassoc : buf ++ (a ++ b) = (buf ++ a) ++ b := (List.append_assoc buf a b).symm
    rw [heq2, hassoc, splitNL_append (buf ++ a) b, List.map_append, llmB_runLines_append]
    have heq1 : LlmB.feedChunk (LlmB.St.running buf full out) a
        = (match LlmB.runLines full out ((Llm.splitNL (buf ++ a)).1.map Llm.stripCR) with
           | Sum.inl (f, o) => LlmB.St.running (Llm.splitNL (buf ++ a)).2 f o
           | Sum.inr (o, fin) => LlmB.St.finished o fin) := rfl
    rw [heq1]
    cases hr : LlmB.runLines full out ((Llm.splitNL (buf ++ a)).1.map Llm.stripCR) with
    | inl p => obtain ⟨f, o⟩ := p; rfl
    | inr q => obtain ⟨o, fin⟩ := q; rfl

/-- Folding the chunk loop equals one feed of the concatenated stream. -/
theorem llmB_foldl_chunks (cs : List (List Char)) :
    ∀ (a : List Char) (st : LlmB.St),
      (a :: cs).foldl LlmB.feedChunk st = LlmB.feedChunk st (a ++ cs.flatten) := by
  induction cs with
  | nil => intro a st; simp [List.foldl]
  | cons c cs ih =>
    intro a st
    show (c :: cs).foldl LlmB.feedChunk (LlmB.feedChunk st a) = _
    rw [ih c (LlmB.feedChunk st a), llmB_feedChunk_append]
    simp [List.flatten]

/-- A buffered run depends only on the concatenation of the chunks. -/
theorem llmB_run_chunks_join (cs : List (List Char)) :
    LlmB.run (Llm.BodyOutcome.chunks cs) = LlmB.run (Llm.BodyOutcome.chunks [cs.flatten]) := by
  have hrun : ∀ l : List (List Char), LlmB.run (Llm.BodyOutcome.chunks l)
      = (match l.foldl LlmB.feedChunk (LlmB.St.running [] [] []) with
         | LlmB.St.running _ full out => (out, Llm.Final.done (String.mk full))
         | LlmB.St.finished out fin => (out, fin)) := fun _ => rfl
  cases cs with
  | nil => rfl
  | cons a cs =>
    rw [hrun, hrun]
    have h1 : (a :: cs).foldl LlmB.feedChunk (LlmB.St.running [] [] [])
        = LlmB.feedChunk (LlmB.St.running [] [] []) (a ++ cs.flatten) :=
      llmB_foldl_chunks cs a _
    have h2 : [(a :: cs).flatten].foldl LlmB.feedChunk (LlmB.St.running [] [] [])
        = LlmB.feedChunk (LlmB.St.running [] [] []) (a ++ cs.flatten) := by
      show LlmB.feedChunk (LlmB.St.running [] [] []) ((a :: cs).flatten) = _
      simp [List.flatten]
    rw [h1, h2]

/-- Claim C9 as stated is false for the `streamChat` of
`server/lib/llm.js` (the variant `server/index.js` imports): it splits
each chunk on `"\n"` with no carry-over, so the same bytes split at a
different boundary drop the token that a complete data line carries —
here one chunking yields the token `hi` and `onDone "hi"`, the other
yields no token and `onDone ""`. -/
theorem streamChat_simple_chunking_counterexample :
    ("data: \x7b\"choices\":[\x7b\"delta\":\x7b\"content\":\"hi\"\x7d\x7d]\x7d\n").toList.take 20
        ++ ("data: \x7b\"choices\":[\x7b\"delta\":\x7b\"content\":\"hi\"\x7d\x7d]\x7d\n").toList.drop 20
      = ("data: \x7b\"choices\":[\x7b\"delta\":\x7b\"content\":\"hi\"\x7d\x7d]\x7d\n").toList
    ∧ LlmS.run (Llm.BodyOutcome.chunks
        [("data: \x7b\"choices\":[\x7b\"delta\":\x7b\"content\":\"hi\"\x7d\x7d]\x7d\n").toList.take 20,
         ("data: \x7b\"choices\":[\x7b\"delta\":\x7b\"content\":\"hi\"\x7d\x7d]\x7d\n").toList.drop 20])
      ≠ LlmS.run (Llm.BodyOutcome.chunks
        [("data: \x7b\"choices\":[\x7b\"delta\":\x7b\"content\":\"hi\"\x7d\x7d]\x7d\n").toList]) := by
  constructor
  · exact List.take_append_drop 20 _
  · decide

/-- Claim C9 (amended): the buffered `streamChat` (the revised
`server/lib/llm.js`) is chunk-boundary independent — for any two
chunkings of the same character stream it invokes the same `onToken`
sequence and the same single final callback; the simple variant is not
(see the counterexample). -/
theorem streamChat_buffered_chunk_independent (cs ds : List (List Char))
    (h : cs.flatten = ds.flatten) :
    LlmB.run (Llm.BodyOutcome.chunks cs) = LlmB.run (Llm.BodyOutcome.chunks ds) := by
  rw [llmB_run_chunks_join cs, llmB_run_chunks_join ds, h]

/-- Witness for C9's amended theorem: the data line split mid-JSON versus
delivered whole — same run, and the buffered parser emits the delta
exactly once either way. -/
theorem streamChat_buffered_chunk_independent_witness :
    LlmB.run (Llm.BodyOutcome.chunks
        [("data: \x7b\"choices\":[\x7b\"delta\":\x7b\"content\":\"hi\"\x7d\x7d]\x7d\n").toList.take 20,
         ("data: \x7b\"choices\":[\x7b\"delta\":\x7b\"content\":\"hi\"\x7d\x7d]\x7d\n").toList.drop 20])
      = LlmB.run (Llm.BodyOutcome.chunks
        [("data: \x7b\"choices\":[\x7b\"delta\":\x7b\"content\":\"hi\"\x7d\x7d]\x7d\n").toList]) :=
  streamChat_buffered_chunk_independent _ _ (by decide)
